import Mathlib

/-!
Verification development for the Map transform / camera-update subsystem and the
Action Journal of the MapLibre Native repository.

The repository sources available here are the public facade `map.cpp` (together
with `map.hpp` and `map_impl.hpp`).  The bodies of `Transform`, `TransformState`,
`Map::Impl` and `util::ActionJournal` are not part of the sources, so those
operations are modelled from the specification; each such definition carries a
doc comment starting with `Modelled from the spec:`.  Everything translated from
`map.cpp` carries a comment naming the source function.

Numeric convention: C++ `double` camera quantities are modelled by `ℚ` (the
claims under study are about exact control flow and ordering, not rounding), and
the log2-based zoom/scale conversions are modelled over `ℝ`.  Angles are kept in
degrees throughout; the `rad2deg`/`deg2rad` conversions of the source are
order-preserving bijections, so comparisons and clamping commute with them and
the modelled state simply stores the public degree-valued quantities.
-/

namespace mbgl

/-- util::clamp from util/math.hpp: max(min_, min(max_, value)). -/
def clamp (value lo hi : ℚ) : ℚ := max lo (min hi value)

/-- Linear interpolation helper used by the modelled transition advancement. -/
def lerp (a b u : ℚ) : ℚ := a + (b - a) * u

/-- Modelled from the spec: the default easing curve of easeTo is an ease-out
cubic (section 4.2). -/
def easeOutCubic (k : ℚ) : ℚ := 1 - (1 - k) ^ 3

/-- Modelled from the spec: bearing normalization to the half-open interval
from -180 (exclusive) to 180 (inclusive) degrees (section 3 states the bearing
is always kept normalized). -/
def normalizeBearing (b : ℚ) : ℚ := b - 360 * ⌈(b - 180) / 360⌉

/-- Geographic coordinate (degrees). -/
structure LatLng where
  latitude : ℚ
  longitude : ℚ
deriving DecidableEq, Repr

/-- Screen-space coordinate (pixels). -/
structure ScreenCoordinate where
  x : ℚ
  y : ℚ
deriving DecidableEq, Repr

/-- Edge insets (padding) in pixels. -/
structure EdgeInsets where
  top : ℚ := 0
  left : ℚ := 0
  bottom : ℚ := 0
  right : ℚ := 0
deriving DecidableEq, Repr

/-- Viewport size in pixels. -/
structure Size where
  width : ℕ
  height : ℕ
deriving DecidableEq, Repr

/-- Pan bounds restricting the center (all in degrees). -/
structure LatLngBounds where
  south : ℚ
  west : ℚ
  north : ℚ
  east : ℚ
deriving DecidableEq, Repr

/-- CameraOptions: every field optional, absent fields are left untouched by
camera mutations (partial update semantics). -/
structure CameraOptions where
  center : Option LatLng := none
  padding : Option EdgeInsets := none
  anchor : Option ScreenCoordinate := none
  zoom : Option ℚ := none
  bearing : Option ℚ := none
  pitch : Option ℚ := none
deriving DecidableEq, Repr

/-- AnimationOptions: only the duration matters for the modelled claims. -/
structure AnimationOptions where
  duration : ℚ := 0
deriving DecidableEq, Repr

/-- BoundOptions as consumed by Map::setBounds. -/
structure BoundOptions where
  bounds : Option LatLngBounds := none
  minZoom : Option ℚ := none
  maxZoom : Option ℚ := none
  minPitch : Option ℚ := none
  maxPitch : Option ℚ := none
deriving DecidableEq, Repr

/-- Modelled from the spec: the TransformState camera snapshot of section 3 —
center, zoom, bearing, pitch, configured min/max ranges, viewport size, edge
insets and optional pan bounds (the transform_state implementation is not among
the sources).  Angles are stored in degrees in the public sign convention. -/
structure TransformState where
  latitude : ℚ
  longitude : ℚ
  zoom : ℚ
  bearing : ℚ
  pitch : ℚ
  minZoom : ℚ
  maxZoom : ℚ
  minPitch : ℚ
  maxPitch : ℚ
  size : Size
  edgeInsets : EdgeInsets
  bounds : Option LatLngBounds := none
deriving DecidableEq, Repr

/-- Modelled from the spec: the merge-and-clamp step shared by jumpTo and by
transition-target resolution (section 4.2: jumpTo merges only the fields present
in the camera, clamps zoom and pitch into their configured ranges, keeps the
bearing normalized, and, when pan bounds are set, clamps the center into them;
the transform implementation is not among the sources). -/
def TransformState.resolveTarget (st : TransformState) (c : CameraOptions) : TransformState :=
  let lat0 := match c.center with
    | some ll => ll.latitude
    | none => st.latitude
  let lng0 := match c.center with
    | some ll => ll.longitude
    | none => st.longitude
  let lat := match st.bounds with
    | some b => clamp lat0 b.south b.north
    | none => lat0
  let lng := match st.bounds with
    | some b => clamp lng0 b.west b.east
    | none => lng0
  { st with
    latitude := lat
    longitude := lng
    zoom := clamp (c.zoom.getD st.zoom) st.minZoom st.maxZoom
    bearing := normalizeBearing (c.bearing.getD st.bearing)
    pitch := clamp (c.pitch.getD st.pitch) st.minPitch st.maxPitch
    edgeInsets := c.padding.getD st.edgeInsets }

/-- Modelled from the spec: TransformState::getCameraOptions — reports the
current camera, with the given padding when present and the stored edge insets
otherwise (the transform_state implementation is not among the sources). -/
def TransformState.getCameraOptions (st : TransformState) (padding : Option EdgeInsets) :
    CameraOptions :=
  { center := some ⟨st.latitude, st.longitude⟩
    padding := some (padding.getD st.edgeInsets)
    zoom := some st.zoom
    bearing := some st.bearing
    pitch := some st.pitch }

/-- Modelled from the spec: an in-flight camera transition — the resumable
computation of section 9 storing its start state, resolved target, start time
and end time, plus an identity used to track its completion callback. -/
structure Transition where
  id : ℕ
  source : TransformState
  target : TransformState
  startTime : ℚ
  endTime : ℚ
deriving DecidableEq, Repr

/-- Modelled from the spec: interpolation of the camera fields between the
start state and the resolved target (section 4.2). -/
def TransformState.interpolateTo (src dst : TransformState) (u : ℚ) : TransformState :=
  { src with
    latitude := lerp src.latitude dst.latitude u
    longitude := lerp src.longitude dst.longitude u
    zoom := lerp src.zoom dst.zoom u
    bearing := lerp src.bearing dst.bearing u
    pitch := lerp src.pitch dst.pitch u }

/-- Modelled from the spec: the Transform of section 4.2 — one TransformState,
at most one active transition, a gesture flag, a fresh-id counter for
transitions, and the log of transition completion callbacks that have fired
(the shallow embedding of the observer onCameraDidChange completion events). -/
structure Transform where
  state : TransformState
  activeTransition : Option Transition := none
  nextId : ℕ := 0
  finished : List ℕ := []
  gestureInProgress : Bool := false
deriving DecidableEq, Repr

/-- Modelled from the spec: Transform::jumpTo performs an immediate synchronous
merge-and-clamp state change and collapses any in-flight animation to Idle
without firing its completion (section 4.2). -/
def Transform.jumpTo (t : Transform) (c : CameraOptions) : Transform :=
  { t with state := t.state.resolveTarget c, activeTransition := none }

/-- Modelled from the spec: Transform::easeTo — resolves the target camera at
start; with positive duration it registers a new transition, abandoning (not
completing) any prior one; with non-positive duration it is an immediate change
whose completion fires at once (section 4.2, section 5). -/
def Transform.easeTo (t : Transform) (c : CameraOptions) (a : AnimationOptions) (now : ℚ) :
    Transform :=
  let target := t.state.resolveTarget c
  if a.duration ≤ 0 then
    { t with
      state := target
      activeTransition := none
      finished := t.finished ++ [t.nextId]
      nextId := t.nextId + 1 }
  else
    { t with
      activeTransition := some ⟨t.nextId, t.state, target, now, now + a.duration⟩
      nextId := t.nextId + 1 }

/-- Modelled from the spec: the per-frame advancement of the active transition
(section 5, section 9): when the duration has elapsed the target is applied, the
transition becomes Idle and its completion callback fires; otherwise the camera
is interpolated with the ease-out cubic curve. -/
def Transform.advance (t : Transform) (now : ℚ) : Transform :=
  match t.activeTransition with
  | none => t
  | some tr =>
    if tr.endTime ≤ now then
      { t with
        state := tr.target
        activeTransition := none
        finished := t.finished ++ [tr.id] }
    else
      let k := (now - tr.startTime) / (tr.endTime - tr.startTime)
      { t with state := tr.source.interpolateTo tr.target (easeOutCubic (clamp k 0 1)) }

/-- Modelled from the spec: cancelTransitions forces Idle without changing the
camera value (section 4.2; whether the cut-short transition reports a completion
is left open in section 9, so none is recorded here). -/
def Transform.cancelTransitions (t : Transform) : Transform :=
  { t with activeTransition := none }

/-- Modelled from the spec: setGestureInProgress is a pure flag (section 4.2). -/
def Transform.setGestureInProgress (t : Transform) (b : Bool) : Transform :=
  { t with gestureInProgress := b }

/-- Modelled from the spec: constraint setters update the configured range only;
the re-jump of an out-of-range camera value is the responsibility of the caller
(section 4.1 refers to Map::setBounds for it). -/
def Transform.setLatLngBounds (t : Transform) (b : LatLngBounds) : Transform :=
  { t with state := { t.state with bounds := some b } }

/-- Modelled from the spec: see Transform.setLatLngBounds. -/
def Transform.setMinZoom (t : Transform) (z : ℚ) : Transform :=
  { t with state := { t.state with minZoom := z } }

/-- Modelled from the spec: see Transform.setLatLngBounds. -/
def Transform.setMaxZoom (t : Transform) (z : ℚ) : Transform :=
  { t with state := { t.state with maxZoom := z } }

/-- Modelled from the spec: see Transform.setLatLngBounds. -/
def Transform.setMinPitch (t : Transform) (p : ℚ) : Transform :=
  { t with state := { t.state with minPitch := p } }

/-- Modelled from the spec: see Transform.setLatLngBounds. -/
def Transform.setMaxPitch (t : Transform) (p : ℚ) : Transform :=
  { t with state := { t.state with maxPitch := p } }

/-- Transform::getZoom. -/
def Transform.getZoom (t : Transform) : ℚ := t.state.zoom

/-- Transform::getPitch (degrees in this model, see the header comment). -/
def Transform.getPitch (t : Transform) : ℚ := t.state.pitch

/-- Transform::getState. -/
def Transform.getState (t : Transform) : TransformState := t.state

/-- Transform::getCameraOptions. -/
def Transform.getCameraOptions (t : Transform) (padding : Option EdgeInsets) : CameraOptions :=
  t.state.getCameraOptions padding

/-- MapMode from map/mode.hpp. -/
inductive MapMode
  | Continuous
  | Static
  | Tile
deriving DecidableEq, Repr

/-- Log severities of util/logging.hpp (EventSeverity). -/
inductive LogSeverity
  | Debug
  | Info
  | Warning
  | Error
deriving DecidableEq, Repr

/-- The state held by Map::Impl (map_impl.hpp): the transform, the map mode,
the lifecycle flags, and the optional in-flight still-image request (modelled by
an Option Unit, since only its presence is observed).  The external
collaborators (observer, renderer frontend, file source, annotation manager,
action journal handle) carry no state consulted by the claims under study; the
owned style is represented by its two observable bits, whether it reports
loaded and whether it holds a last error. -/
structure MapImpl where
  transform : Transform
  mode : MapMode
  cameraMutated : Bool := false
  prefetchZoomDelta : ℕ := 4
  loading : Bool := false
  rendererFullyLoaded : Bool := false
  stillImageRequest : Option Unit := none
  styleLoaded : Bool := false
  styleHasLastError : Bool := false
deriving DecidableEq, Repr

/-- Modelled from the spec: Map::Impl::jumpTo — records the camera mutation and
delegates to Transform::jumpTo before scheduling a render pass (section 2
control flow; the map_impl implementation is not among the sources). -/
def MapImpl.jumpTo (m : MapImpl) (c : CameraOptions) : MapImpl :=
  { m with cameraMutated := true, transform := m.transform.jumpTo c }

/-- Modelled from the spec: Map::Impl::onStyleLoading — marks the map loading,
resets cameraMutated (section 4.3), and, since setStyle must implicitly cancel
any active transition before proceeding (section 5) and onStyleLoading is the
only step Map::setStyle performs before swapping the style, cancels the active
transition (the map_impl implementation is not among the sources). -/
def MapImpl.onStyleLoading (m : MapImpl) : MapImpl :=
  { m with
    loading := true
    cameraMutated := false
    transform := m.transform.cancelTransitions }

/-- Modelled from the spec: Map::Impl::onDidFinishRenderingFrame — the renderer
reports a finished frame and rendererFullyLoaded is updated as the negation of
its needsRepaint argument (section 4.3: rendererFullyLoaded = !needsRepaint; the
map_impl implementation is not among the sources).  The remaining arguments
(render mode, placementChanged, timings) are forwarded to the observer and the
journal without touching this state, so they are omitted here. -/
def MapImpl.onDidFinishRenderingFrame (m : MapImpl) (needsRepaint : Bool) : MapImpl :=
  { m with rendererFullyLoaded := !needsRepaint }

/-- From map.cpp: Map::jumpTo delegates to impl->jumpTo. -/
def Map.jumpTo (m : MapImpl) (c : CameraOptions) : MapImpl :=
  m.jumpTo c

/-- From map.cpp: Map::getCameraOptions delegates to the transform. -/
def Map.getCameraOptions (m : MapImpl) (padding : Option EdgeInsets) : CameraOptions :=
  m.transform.getCameraOptions padding

/-- From map.cpp: Map::easeTo — records the camera mutation and delegates to
Transform::easeTo (onUpdate only schedules rendering). -/
def Map.easeTo (m : MapImpl) (c : CameraOptions) (a : AnimationOptions) (now : ℚ) : MapImpl :=
  { m with cameraMutated := true, transform := m.transform.easeTo c a now }

/-- From map.cpp: Map::cancelTransitions delegates to Transform. -/
def Map.cancelTransitions (m : MapImpl) : MapImpl :=
  { m with transform := m.transform.cancelTransitions }

/-- From map.cpp: Map::setStyle — asserts the style, calls impl->onStyleLoading,
then replaces the owned style (represented by its observable bits). -/
def Map.setStyle (m : MapImpl) (newStyleLoaded newStyleHasLastError : Bool) : MapImpl :=
  let m1 := m.onStyleLoading
  { m1 with styleLoaded := newStyleLoaded, styleHasLastError := newStyleHasLastError }

/-- From map.cpp: Map::isFullyLoaded — style loaded AND rendererFullyLoaded. -/
def Map.isFullyLoaded (m : MapImpl) : Bool :=
  m.styleLoaded && m.rendererFullyLoaded

/-- Outcome of Map::renderStill as observed by the caller: either the callback
is invoked synchronously with the given kind of error, or a still-image request
is started, or (with no callback supplied) an error is logged and nothing else
happens. -/
inductive RenderStillOutcome
  | noCallbackLogged
  | misuseModeError
  | misuseInFlight
  | styleLastError
  | requestStarted
deriving DecidableEq, Repr

/-- The outcomes in which the supplied callback is invoked synchronously with a
MisuseException. -/
def RenderStillOutcome.isMisuseCallback : RenderStillOutcome → Bool
  | misuseModeError => true
  | misuseInFlight => true
  | _ => false

/-- From map.cpp: Map::renderStill(StillImageCallback).  The callback itself is
modelled by whether it was supplied; the returned outcome records which channel
was used.  The checks are performed in the source order: missing callback, map
mode neither Static nor Tile, request already in flight, style last error; only
after all of them a new StillImageRequest is stored. -/
def Map.renderStill (m : MapImpl) (hasCallback : Bool) : MapImpl × RenderStillOutcome :=
  if hasCallback = false then
    (m, RenderStillOutcome.noCallbackLogged)
  else if m.mode ≠ MapMode.Static ∧ m.mode ≠ MapMode.Tile then
    (m, RenderStillOutcome.misuseModeError)
  else if m.stillImageRequest.isSome then
    (m, RenderStillOutcome.misuseInFlight)
  else if m.styleHasLastError then
    (m, RenderStillOutcome.styleLastError)
  else
    ({ m with stillImageRequest := some () }, RenderStillOutcome.requestStarted)

/-- One sequential block of Map::setBounds from map.cpp, threading the state
(impl, accumulated cameraOptions, changeCamera flag): the options.bounds block
stores the pan bounds and requests a camera change. -/
def setBoundsStepBounds (ob : Option LatLngBounds) (a : MapImpl × CameraOptions × Bool) :
    MapImpl × CameraOptions × Bool :=
  match ob with
  | some b => ({ a.1 with transform := a.1.transform.setLatLngBounds b }, a.2.1, true)
  | none => a

/-- The options.minZoom block of Map::setBounds: stores the constraint; when
the current zoom lies below it, records zoom := minZoom in the accumulated
camera and requests a change (the comparison mirrors the source:
transform.getZoom() < *options.minZoom). -/
def setBoundsStepMinZoom (oz : Option ℚ) (a : MapImpl × CameraOptions × Bool) :
    MapImpl × CameraOptions × Bool :=
  match oz with
  | some mz =>
    let m1 := { a.1 with transform := a.1.transform.setMinZoom mz }
    if m1.transform.getZoom < mz then (m1, { a.2.1 with zoom := some mz }, true)
    else (m1, a.2.1, a.2.2)
  | none => a

/-- The options.maxZoom block of Map::setBounds (comparison
transform.getZoom() > *options.maxZoom). -/
def setBoundsStepMaxZoom (oz : Option ℚ) (a : MapImpl × CameraOptions × Bool) :
    MapImpl × CameraOptions × Bool :=
  match oz with
  | some mx =>
    let m1 := { a.1 with transform := a.1.transform.setMaxZoom mx }
    if mx < m1.transform.getZoom then (m1, { a.2.1 with zoom := some mx }, true)
    else (m1, a.2.1, a.2.2)
  | none => a

/-- The options.maxPitch block of Map::setBounds (comparison
transform.getPitch() > transform.getState().getMaxPitch(), against the freshly
stored constraint). -/
def setBoundsStepMaxPitch (op : Option ℚ) (a : MapImpl × CameraOptions × Bool) :
    MapImpl × CameraOptions × Bool :=
  match op with
  | some mp =>
    let m1 := { a.1 with transform := a.1.transform.setMaxPitch mp }
    if m1.transform.getState.maxPitch < m1.transform.getPitch then
      (m1, { a.2.1 with pitch := some mp }, true)
    else (m1, a.2.1, a.2.2)
  | none => a

/-- The options.minPitch block of Map::setBounds (comparison
transform.getPitch() < transform.getState().getMinPitch()). -/
def setBoundsStepMinPitch (op : Option ℚ) (a : MapImpl × CameraOptions × Bool) :
    MapImpl × CameraOptions × Bool :=
  match op with
  | some mp =>
    let m1 := { a.1 with transform := a.1.transform.setMinPitch mp }
    if m1.transform.getPitch < m1.transform.getState.minPitch then
      (m1, { a.2.1 with pitch := some mp }, true)
    else (m1, a.2.1, a.2.2)
  | none => a

/-- From map.cpp: Map::setBounds — applies the blocks above in the source
order (bounds, minZoom, maxZoom, maxPitch, minPitch), starting from an empty
CameraOptions and changeCamera = false, and performs a single re-jump at the
end when a change was requested. -/
def Map.setBounds (m : MapImpl) (o : BoundOptions) : MapImpl :=
  let a := setBoundsStepMinPitch o.minPitch (setBoundsStepMaxPitch o.maxPitch
    (setBoundsStepMaxZoom o.maxZoom (setBoundsStepMinZoom o.minZoom
      (setBoundsStepBounds o.bounds (m, {}, false)))))
  if a.2.2 then Map.jumpTo a.1 a.2.1 else a.1

/-- The x coordinate of nePixel in mbgl::cameraForLatLngs: the fold computing
the maximal projected x over a nonempty point list.  The source starts the fold
at -INFINITY, the identity of max, so over a nonempty list it equals the fold
started at the first projected point. -/
def neX (proj : LatLng → ScreenCoordinate) (p : LatLng) (ps : List LatLng) : ℚ :=
  (ps.map proj).foldl (fun a q => max a q.x) (proj p).x

/-- The y coordinate of nePixel in mbgl::cameraForLatLngs (see neX). -/
def neY (proj : LatLng → ScreenCoordinate) (p : LatLng) (ps : List LatLng) : ℚ :=
  (ps.map proj).foldl (fun a q => max a q.y) (proj p).y

/-- The x coordinate of swPixel in mbgl::cameraForLatLngs (see neX; INFINITY is
the identity of min). -/
def swX (proj : LatLng → ScreenCoordinate) (p : LatLng) (ps : List LatLng) : ℚ :=
  (ps.map proj).foldl (fun a q => min a q.x) (proj p).x

/-- The y coordinate of swPixel in mbgl::cameraForLatLngs (see neX). -/
def swY (proj : LatLng → ScreenCoordinate) (p : LatLng) (ps : List LatLng) : ℚ :=
  (ps.map proj).foldl (fun a q => min a q.y) (proj p).y

/-- The minScale local of mbgl::cameraForLatLngs: none encodes its INFINITY
initial value, kept when neither extent is positive; otherwise
min(size.width/width - (padding.left+padding.right)/width,
    size.height/height - (padding.top+padding.bottom)/height). -/
def minScaleFor (proj : LatLng → ScreenCoordinate) (size : Size) (padding : EdgeInsets)
    (p : LatLng) (ps : List LatLng) : Option ℚ :=
  let width := neX proj p ps - swX proj p ps
  let height := neY proj p ps - swY proj p ps
  if 0 < width ∨ 0 < height then
    some (min ((size.width : ℚ) / width - (padding.left + padding.right) / width)
              ((size.height : ℚ) / height - (padding.top + padding.bottom) / height))
  else
    none

/-- From map.cpp: the free function mbgl::cameraForLatLngs(latLngs, transform,
padding).  The Transform argument is represented by the quantities the source
reads from it: the forward projection transform.latLngToScreenCoordinate, the
inverse projection transform.screenCoordinateToLatLng, the state (size, current
zoom, zoom range), and the util::log2 function (whose implementation is not
among the sources; the claims under study do not depend on its values).  The
second component records the severity of the diagnostic the source logs, if
any: the degenerate-padding branch calls Log::Error.  When minScale keeps its
INFINITY value (none), the source computes clamp(zoom + log2(INFINITY)) =
max(minZoom, maxZoom). -/
def cameraForLatLngs (proj : LatLng → ScreenCoordinate) (invProj : ScreenCoordinate → LatLng)
    (st : TransformState) (l2 : ℚ → ℚ) (latLngs : List LatLng) (padding : EdgeInsets) :
    CameraOptions × Option LogSeverity :=
  match latLngs with
  | [] => ({}, none)
  | p :: ps =>
    let ms := minScaleFor proj st.size padding p ps
    let zoomAndLog : ℚ × Option LogSeverity :=
      match ms with
      | none => (max st.minZoom st.maxZoom, none)
      | some s =>
        if 0 < s then (clamp (st.zoom + l2 s) st.minZoom st.maxZoom, none)
        else (st.zoom, some LogSeverity.Error)
    let centerPixel : ScreenCoordinate :=
      ⟨(neX proj p ps + swX proj p ps) / 2, (neY proj p ps + swY proj p ps) / 2⟩
    ({ center := some (invProj centerPixel)
       padding := some padding
       zoom := some zoomAndLog.1 }, zoomAndLog.2)

/-- From map.cpp: Map::cameraForLatLngs — with neither bearing nor pitch given
it delegates directly to the free function on the live transform; otherwise it
jumps a shallow copy of the state to the requested bearing/pitch first and
stamps them onto the result (the rad2deg and sign conversions of the source are
identities in this degree-valued model).  The method is const; the map state is
returned unchanged to make that explicit.  The projections depend on the camera,
so they are passed as functions of the state. -/
def Map.cameraForLatLngs (proj : TransformState → LatLng → ScreenCoordinate)
    (invProj : TransformState → ScreenCoordinate → LatLng) (l2 : ℚ → ℚ)
    (m : MapImpl) (latLngs : List LatLng) (padding : EdgeInsets)
    (bearing pitch : Option ℚ) : CameraOptions × MapImpl :=
  if bearing.isNone && pitch.isNone then
    ((mbgl.cameraForLatLngs (proj m.transform.state) (invProj m.transform.state)
        m.transform.state l2 latLngs padding).1, m)
  else
    let shallow := m.transform.state.resolveTarget { bearing := bearing, pitch := pitch }
    let r := (mbgl.cameraForLatLngs (proj shallow) (invProj shallow) shallow l2 latLngs padding).1
    ({ r with bearing := some shallow.bearing, pitch := some shallow.pitch }, m)

/-- ActionJournalOptions (util/action_journal_options.hpp): rotation size and
file-count bounds. -/
structure ActionJournalOptions where
  logFileSize : ℕ
  logFileCount : ℕ
deriving DecidableEq, Repr

/-- The on-disk name of the journal file with the given index. -/
def journalFileName (i : ℕ) : String :=
  "action_journal." ++ toString i ++ ".log"

/-- The byte size of a journal file holding the given serialized events. -/
def journalFileSize (sz : E → ℕ) (f : List E) : ℕ :=
  (f.map sz).sum

/-- Modelled from the spec: the rotation step of the Action Journal (section
4.4; the action_journal implementation is not among the sources).  The journal
is the list of file contents, head = index 0 = newest.  Rotation deletes file
logFileCount-1 when present (the take), renames each remaining file i to i+1
(the shift produced by consing) and creates a new empty file 0. -/
def rotateJournalFiles (opts : ActionJournalOptions) (files : List (List E)) : List (List E) :=
  [] :: files.take (opts.logFileCount - 1)

/-- Modelled from the spec: appending one event to the Action Journal (section
4.4).  If the size of the current index-0 file has reached logFileSize the
files are rotated first; the event is then written at the end of file 0, the
only file ever appended to. -/
def appendJournalEvent (sz : E → ℕ) (opts : ActionJournalOptions)
    (files : List (List E)) (e : E) : List (List E) :=
  match files with
  | [] => [[e]]
  | f0 :: rest =>
    if opts.logFileSize ≤ journalFileSize sz f0 then
      match rotateJournalFiles opts (f0 :: rest) with
      | [] => [[e]]
      | g0 :: grest => (g0 ++ [e]) :: grest
    else
      (f0 ++ [e]) :: rest

/-- Modelled from the spec: TransformState::scaleZoom is the log2-based
conversion from a scale factor to a zoom delta (section 4.1: scale = 2^Δzoom;
the transform_state implementation is not among the sources). -/
noncomputable def scaleZoom (scale : ℝ) : ℝ := Real.logb 2 scale

/-- Modelled from the spec: TransformState::zoomScale is the inverse conversion,
2 raised to the zoom (section 4.1). -/
noncomputable def zoomScale (zoom : ℝ) : ℝ := (2 : ℝ) ^ zoom

/-- A concrete transform state used to evaluate the theorems on explicit
inputs: zoom 4 in the range 0..22, pitch range 0..60 degrees, a 100 by 100
pixel viewport, no pan bounds. -/
def exampleState : TransformState :=
  { latitude := 0, longitude := 0, zoom := 4, bearing := 0, pitch := 0,
    minZoom := 0, maxZoom := 22, minPitch := 0, maxPitch := 60,
    size := ⟨100, 100⟩, edgeInsets := {}, bounds := none }

/-- A concrete idle transform. -/
def exampleTransform : Transform :=
  { state := exampleState }

/-- A concrete transition over exampleState, running from time 0 to 10. -/
def exampleTransition : Transition :=
  ⟨0, exampleState, exampleState, 0, 10⟩

/-- A concrete transform with a transition in progress. -/
def exampleTransitioningTransform : Transform :=
  { state := exampleState, activeTransition := some exampleTransition, nextId := 1 }

/-- A concrete Map::Impl state in Continuous mode with an idle transform. -/
def exampleImpl : MapImpl :=
  { transform := exampleTransform, mode := MapMode.Continuous }

/-- A concrete Map::Impl state with a camera transition in progress. -/
def exampleTransitioningImpl : MapImpl :=
  { transform := exampleTransitioningTransform, mode := MapMode.Continuous }

/-- A concrete forward projection used to evaluate the camera-fitting
theorems: longitude to x, latitude to y. -/
def projEx : LatLng → ScreenCoordinate := fun ll => ⟨ll.longitude, ll.latitude⟩

/-- The matching concrete inverse projection. -/
def invProjEx : ScreenCoordinate → LatLng := fun c => ⟨c.y, c.x⟩

/-- A concrete stand-in for util::log2 (the theorems under study do not depend
on its values). -/
def l2Ex : ℚ → ℚ := fun _ => 0

/-- A padding whose left inset (1000 px) exceeds the 100 px viewport width. -/
def exampleDegeneratePadding : EdgeInsets := ⟨0, 1000, 0, 0⟩

/-- Two concrete corner points spanning 10 pixels in each direction under
projEx. -/
def exampleCorners : List LatLng := [⟨0, 0⟩, ⟨10, 10⟩]

/-- clamp stays within a nonempty range. -/
theorem clamp_mem (v lo hi : ℚ) (h : lo ≤ hi) : lo ≤ clamp v lo hi ∧ clamp v lo hi ≤ hi :=
  ⟨le_max_left _ _, max_le h (min_le_left _ _)⟩

/-- clamping a value to a range whose lower end is the value itself returns
the value, whatever the upper end. -/
theorem clamp_at_lo (v hi : ℚ) : clamp v v hi = v :=
  max_eq_left (min_le_right hi v)

/-- clamping a value to a range whose upper end is the value itself returns
the value when the lower end does not exceed it. -/
theorem clamp_at_hi (v lo : ℚ) (h : lo ≤ v) : clamp v lo v = v := by
  unfold clamp
  rw [min_self]
  exact max_eq_right h

/-- Claim C1: after Map::jumpTo with a CameraOptions whose zoom field is z,
getCameraOptions reports zoom equal to clamp(z, minZoom, maxZoom), and the
stored zoom lies within the configured min/max. -/
theorem jumpTo_clamps_zoom (m : MapImpl) (c : CameraOptions) (z : ℚ)
    (hz : c.zoom = some z)
    (hrange : m.transform.state.minZoom ≤ m.transform.state.maxZoom) :
    (Map.getCameraOptions (Map.jumpTo m c) none).zoom =
      some (clamp z m.transform.state.minZoom m.transform.state.maxZoom) ∧
    m.transform.state.minZoom ≤ (Map.jumpTo m c).transform.state.zoom ∧
    (Map.jumpTo m c).transform.state.zoom ≤ m.transform.state.maxZoom := by
  have hmem := clamp_mem z _ _ hrange
  refine ⟨?_, ?_, ?_⟩ <;>
    simp [Map.jumpTo, MapImpl.jumpTo, Transform.jumpTo, Map.getCameraOptions,
      Transform.getCameraOptions, TransformState.getCameraOptions,
      TransformState.resolveTarget, hz, hmem.1, hmem.2]

/-- Witness for jumpTo_clamps_zoom at a concrete out-of-range zoom request. -/
theorem jumpTo_clamps_zoom_witness :
    ({ zoom := some 30 : CameraOptions }).zoom = some 30 ∧
    exampleImpl.transform.state.minZoom ≤ exampleImpl.transform.state.maxZoom ∧
    ((Map.getCameraOptions (Map.jumpTo exampleImpl { zoom := some 30 }) none).zoom =
        some (clamp 30 exampleImpl.transform.state.minZoom exampleImpl.transform.state.maxZoom) ∧
      exampleImpl.transform.state.minZoom ≤
        (Map.jumpTo exampleImpl { zoom := some 30 }).transform.state.zoom ∧
      (Map.jumpTo exampleImpl { zoom := some 30 }).transform.state.zoom ≤
        exampleImpl.transform.state.maxZoom) :=
  ⟨rfl, by decide, jumpTo_clamps_zoom exampleImpl { zoom := some 30 } 30 rfl (by decide)⟩

/-- Claim C3: Map::isFullyLoaded is true exactly when the style reports loaded
and the rendererFullyLoaded flag is set, and each onDidFinishRenderingFrame
callback updates rendererFullyLoaded as the negation of its needsRepaint
argument. -/
theorem isFullyLoaded_iff :
    (∀ m : MapImpl, Map.isFullyLoaded m = true ↔
      m.styleLoaded = true ∧ m.rendererFullyLoaded = true) ∧
    (∀ (m : MapImpl) (needsRepaint : Bool),
      (m.onDidFinishRenderingFrame needsRepaint).rendererFullyLoaded = !needsRepaint) := by
  constructor
  · intro m
    simp [Map.isFullyLoaded, Bool.and_eq_true]
  · intro m nr
    rfl

/-- Claim C4: renderStill with a supplied callback, while a request is in
flight or outside Static/Tile mode, invokes the callback synchronously with a
misuse error and leaves the map state unchanged. -/
theorem renderStill_misuse_rejected (m : MapImpl)
    (h : (m.mode ≠ MapMode.Static ∧ m.mode ≠ MapMode.Tile) ∨
      m.stillImageRequest.isSome = true) :
    (Map.renderStill m true).1 = m ∧
    ((Map.renderStill m true).2).isMisuseCallback = true := by
  by_cases hm : m.mode ≠ MapMode.Static ∧ m.mode ≠ MapMode.Tile
  · rw [Map.renderStill, if_neg (by simp), if_pos hm]
    exact ⟨rfl, rfl⟩
  · have hreq : m.stillImageRequest.isSome = true := by tauto
    rw [Map.renderStill, if_neg (by simp), if_neg hm, if_pos hreq]
    exact ⟨rfl, rfl⟩

/-- Witness for renderStill_misuse_rejected: a Continuous-mode map. -/
theorem renderStill_misuse_rejected_witness :
    ((exampleImpl.mode ≠ MapMode.Static ∧ exampleImpl.mode ≠ MapMode.Tile) ∨
      exampleImpl.stillImageRequest.isSome = true) ∧
    ((Map.renderStill exampleImpl true).1 = exampleImpl ∧
      ((Map.renderStill exampleImpl true).2).isMisuseCallback = true) :=
  ⟨Or.inl ⟨by decide, by decide⟩,
    renderStill_misuse_rejected exampleImpl (Or.inl ⟨by decide, by decide⟩)⟩

/-- Claim C9: Map::setStyle cancels any active camera transition: whenever a
transition is in progress, after setStyle no transition is active. -/
theorem setStyle_cancels_transitions (m : MapImpl) (sl se : Bool)
    (_h : m.transform.activeTransition.isSome = true) :
    (Map.setStyle m sl se).transform.activeTransition = none := rfl

/-- Witness for setStyle_cancels_transitions on a map with a transition in
progress. -/
theorem setStyle_cancels_transitions_witness :
    exampleTransitioningImpl.transform.activeTransition.isSome = true ∧
    (Map.setStyle exampleTransitioningImpl true false).transform.activeTransition = none :=
  ⟨by decide, setStyle_cancels_transitions exampleTransitioningImpl true false (by decide)⟩

/-- Claim C10: Map::cameraForLatLngs on an empty coordinate list with neither
bearing nor pitch override returns a default-constructed CameraOptions and
leaves the map state unchanged. -/
theorem cameraForLatLngs_empty_default
    (proj : TransformState → LatLng → ScreenCoordinate)
    (invProj : TransformState → ScreenCoordinate → LatLng) (l2 : ℚ → ℚ)
    (m : MapImpl) (padding : EdgeInsets) :
    Map.cameraForLatLngs proj invProj l2 m [] padding none none = ({}, m) := rfl

/-- Claim C8: zoomScale and scaleZoom are mutually inverse: for every positive
scale s the round trip returns s, in particular within the 1e-9 tolerance. -/
theorem scaleZoom_zoomScale_roundTrip (s : ℝ) (hs : 0 < s) :
    |zoomScale (scaleZoom s) - s| ≤ 1e-9 := by
  unfold zoomScale scaleZoom
  rw [Real.rpow_logb (by norm_num) (by norm_num) hs]
  simp only [sub_self, abs_zero]
  norm_num

/-- Witness for scaleZoom_zoomScale_roundTrip at s = 2. -/
theorem scaleZoom_zoomScale_roundTrip_witness :
    (0 : ℝ) < 2 ∧ |zoomScale (scaleZoom 2) - 2| ≤ 1e-9 :=
  ⟨by norm_num, scaleZoom_zoomScale_roundTrip 2 (by norm_num)⟩

/-- A frame tick before the end of the active transition keeps the same
transition active and fires no completion. -/
theorem advance_keeps_active (t : Transform) (tr : Transition) (τ : ℚ)
    (h : t.activeTransition = some tr) (hτ : τ < tr.endTime) :
    (t.advance τ).activeTransition = some tr ∧
    (t.advance τ).finished = t.finished ∧
    (t.advance τ).nextId = t.nextId := by
  simp only [Transform.advance, h, if_neg (not_le.mpr hτ)]
  simp

/-- Frame ticks all strictly before the end of the active transition keep it
active and fire no completion. -/
theorem foldl_advance_keeps_active (ts : List ℚ) (t : Transform) (tr : Transition)
    (h : t.activeTransition = some tr) (hts : ∀ τ ∈ ts, τ < tr.endTime) :
    (ts.foldl Transform.advance t).activeTransition = some tr ∧
    (ts.foldl Transform.advance t).finished = t.finished ∧
    (ts.foldl Transform.advance t).nextId = t.nextId := by
  induction ts generalizing t with
  | nil => exact ⟨h, rfl, rfl⟩
  | cons τ ts ih =>
    have hstep := advance_keeps_active t tr τ h (hts τ (List.mem_cons_self τ ts))
    have hrest := ih (t.advance τ) hstep.1 (fun σ hσ => hts σ (List.mem_cons_of_mem τ hσ))
    exact ⟨hrest.1, hrest.2.1.trans hstep.2.1, hrest.2.2.trans hstep.2.2⟩

/-- With no active transition, frame ticks do nothing at all. -/
theorem foldl_advance_idle (ts : List ℚ) (t : Transform)
    (h : t.activeTransition = none) : ts.foldl Transform.advance t = t := by
  induction ts with
  | nil => rfl
  | cons τ ts ih =>
    have hstep : t.advance τ = t := by simp [Transform.advance, h]
    rw [List.foldl_cons, hstep, ih]

/-- Once some frame tick reaches the end of the active transition, the
transition completes: it becomes inactive, its completion callback fires
exactly once, and the camera equals its resolved target. -/
theorem foldl_advance_completes (ts : List ℚ) (t : Transform) (tr : Transition)
    (h : t.activeTransition = some tr)
    (hx : ∃ τ ∈ ts, tr.endTime ≤ τ) :
    (ts.foldl Transform.advance t).activeTransition = none ∧
    (ts.foldl Transform.advance t).finished = t.finished ++ [tr.id] ∧
    (ts.foldl Transform.advance t).state = tr.target := by
  induction ts generalizing t with
  | nil =>
    obtain ⟨τ, hmem, _⟩ := hx
    exact absurd hmem (List.not_mem_nil τ)
  | cons τ ts ih =>
    by_cases hc : tr.endTime ≤ τ
    · have hstep : t.advance τ =
          { t with state := tr.target, activeTransition := none,
                   finished := t.finished ++ [tr.id] } := by
        simp only [Transform.advance, h, if_pos hc]
      rw [List.foldl_cons, hstep, foldl_advance_idle _ _ rfl]
      simp
    · have hstep := advance_keeps_active t tr τ h (lt_of_not_le hc)
      obtain ⟨σ, hσmem, hσ⟩ := hx
      have hσts : σ ∈ ts := by
        rcases List.mem_cons.mp hσmem with hh | hh
        · exact absurd (hh ▸ hσ) hc
        · exact hh
      have hrest := ih (t.advance τ) hstep.1 ⟨σ, hσts, hσ⟩
      rw [List.foldl_cons]
      exact ⟨hrest.1, hrest.2.1.trans (by rw [hstep.2.1]), hrest.2.2⟩

/-- Claim C2: at most one camera transition is active; starting easeTo B while
easeTo A is still in progress (every tick of ts1 is before the end of A)
abandons A — the completion callback of A never fires — and, once some later
tick reaches the end of B, the completion callback of B has fired exactly once
and the camera equals the target resolved for B, not a blend of the two
targets. -/
theorem easeTo_single_active_transition
    (t0 : Transform) (cA cB : CameraOptions) (aA aB : AnimationOptions)
    (nowA nowB : ℚ) (ts1 ts2 : List ℚ)
    (hfin : t0.finished = [])
    (hdA : 0 < aA.duration) (hdB : 0 < aB.duration)
    (hts1 : ∀ τ ∈ ts1, τ < nowA + aA.duration)
    (hts2 : ∃ τ ∈ ts2, nowB + aB.duration ≤ τ) :
    (ts2.foldl Transform.advance
        ((ts1.foldl Transform.advance (t0.easeTo cA aA nowA)).easeTo cB aB nowB)).finished.count
      t0.nextId = 0 ∧
    (ts2.foldl Transform.advance
        ((ts1.foldl Transform.advance (t0.easeTo cA aA nowA)).easeTo cB aB nowB)).finished.count
      (t0.nextId + 1) = 1 ∧
    (ts2.foldl Transform.advance
        ((ts1.foldl Transform.advance (t0.easeTo cA aA nowA)).easeTo cB aB nowB)).state =
      (ts1.foldl Transform.advance (t0.easeTo cA aA nowA)).state.resolveTarget cB ∧
    (ts2.foldl Transform.advance
        ((ts1.foldl Transform.advance (t0.easeTo cA aA nowA)).easeTo cB aB nowB)).activeTransition =
      none := by
  set tA := t0.easeTo cA aA nowA with htA
  have hA : tA = { t0 with
      activeTransition := some ⟨t0.nextId, t0.state, t0.state.resolveTarget cA, nowA,
        nowA + aA.duration⟩,
      nextId := t0.nextId + 1 } := by
    simp only [htA, Transform.easeTo, if_neg (not_le.mpr hdA)]
  have hkeep := foldl_advance_keeps_active ts1 tA
      ⟨t0.nextId, t0.state, t0.state.resolveTarget cA, nowA, nowA + aA.duration⟩
      (by rw [hA]) (by intro τ hτ; exact hts1 τ hτ)
  set t1 := ts1.foldl Transform.advance tA with ht1
  have ht1fin : t1.finished = [] := by
    rw [hkeep.2.1, hA, hfin]
  have ht1id : t1.nextId = t0.nextId + 1 := by
    rw [hkeep.2.2, hA]
  set trB : Transition :=
    ⟨t1.nextId, t1.state, t1.state.resolveTarget cB, nowB, nowB + aB.duration⟩ with htrB
  set t2 := t1.easeTo cB aB nowB with ht2
  have hB : t2 = { t1 with activeTransition := some trB, nextId := t1.nextId + 1 } := by
    simp only [ht2, Transform.easeTo, if_neg (not_le.mpr hdB), htrB]
  have hdone := foldl_advance_completes ts2 t2 trB (by rw [hB]) (by exact hts2)
  have hfinal : (ts2.foldl Transform.advance t2).finished = [t0.nextId + 1] := by
    rw [hdone.2.1, hB]
    simp [ht1fin, htrB, ht1id]
  refine ⟨?_, ?_, ?_, hdone.1⟩
  · rw [hfinal]
    simp
  · rw [hfinal]
    simp
  · rw [hdone.2.2, htrB]

/-- Witness for easeTo_single_active_transition: a 10-unit easeTo A at time 0,
one tick at time 1, a second easeTo B at time 2, and a tick at time 20 past the
end of B. -/
theorem easeTo_single_active_transition_witness :
    exampleTransform.finished = [] ∧ (0 : ℚ) < 10 ∧
    (∀ τ ∈ [(1 : ℚ)], τ < 0 + 10) ∧ (∃ τ ∈ [(20 : ℚ)], 2 + 10 ≤ τ) ∧
    (([(20 : ℚ)].foldl Transform.advance
        (([(1 : ℚ)].foldl Transform.advance
            (exampleTransform.easeTo { zoom := some 10 } ⟨10⟩ 0)).easeTo
          { zoom := some 5 } ⟨10⟩ 2)).finished.count exampleTransform.nextId = 0 ∧
      ([(20 : ℚ)].foldl Transform.advance
        (([(1 : ℚ)].foldl Transform.advance
            (exampleTransform.easeTo { zoom := some 10 } ⟨10⟩ 0)).easeTo
          { zoom := some 5 } ⟨10⟩ 2)).finished.count (exampleTransform.nextId + 1) = 1 ∧
      ([(20 : ℚ)].foldl Transform.advance
        (([(1 : ℚ)].foldl Transform.advance
            (exampleTransform.easeTo { zoom := some 10 } ⟨10⟩ 0)).easeTo
          { zoom := some 5 } ⟨10⟩ 2)).state =
        ([(1 : ℚ)].foldl Transform.advance
            (exampleTransform.easeTo { zoom := some 10 } ⟨10⟩ 0)).state.resolveTarget
          { zoom := some 5 } ∧
      ([(20 : ℚ)].foldl Transform.advance
        (([(1 : ℚ)].foldl Transform.advance
            (exampleTransform.easeTo { zoom := some 10 } ⟨10⟩ 0)).easeTo
          { zoom := some 5 } ⟨10⟩ 2)).activeTransition = none) := by
  have h1 : ∀ τ ∈ [(1 : ℚ)], τ < 0 + 10 := by
    intro τ hτ
    rw [List.mem_singleton] at hτ
    subst hτ
    norm_num
  have h2 : ∃ τ ∈ [(20 : ℚ)], 2 + 10 ≤ τ := ⟨20, List.mem_singleton_self 20, by norm_num⟩
  exact ⟨rfl, by norm_num, h1, h2,
    easeTo_single_active_transition exampleTransform { zoom := some 10 } { zoom := some 5 }
      ⟨10⟩ ⟨10⟩ 0 2 [1] [20] rfl (by norm_num) (by norm_num) h1 h2⟩

/-- Claim C5: the Action Journal keeps at most logFileCount files; when the
size of file 0 has reached logFileSize, append rotates — the oldest file is
dropped by the take, every remaining file i moves to index i+1, a fresh file 0
is created and receives exactly the new event, and the retained events are
preserved without loss or duplication (the concatenation of the files after the
append is the new event followed by the concatenation of the retained files);
below the size threshold the event is simply appended to file 0 and no other
file is touched. -/
theorem actionJournal_rotation_invariant (E : Type) (sz : E → ℕ)
    (opts : ActionJournalOptions) (f0 : List E) (rest : List (List E)) (e : E)
    (hN : 1 ≤ opts.logFileCount)
    (hlen : (f0 :: rest).length ≤ opts.logFileCount) :
    (appendJournalEvent sz opts (f0 :: rest) e).length ≤ opts.logFileCount ∧
    (opts.logFileSize ≤ journalFileSize sz f0 →
      appendJournalEvent sz opts (f0 :: rest) e =
        [e] :: (f0 :: rest).take (opts.logFileCount - 1) ∧
      (appendJournalEvent sz opts (f0 :: rest) e).flatten =
        e :: ((f0 :: rest).take (opts.logFileCount - 1)).flatten) ∧
    (journalFileSize sz f0 < opts.logFileSize →
      appendJournalEvent sz opts (f0 :: rest) e = (f0 ++ [e]) :: rest) := by
  by_cases hrot : opts.logFileSize ≤ journalFileSize sz f0
  · have heq : appendJournalEvent sz opts (f0 :: rest) e =
        [e] :: (f0 :: rest).take (opts.logFileCount - 1) := by
      simp [appendJournalEvent, rotateJournalFiles, hrot]
    refine ⟨?_, fun _ => ⟨heq, ?_⟩, fun hlt => absurd hrot (not_le.mpr hlt)⟩
    · rw [heq]
      simp only [List.length_cons, List.length_take]
      omega
    · rw [heq]
      simp
  · have heq : appendJournalEvent sz opts (f0 :: rest) e = (f0 ++ [e]) :: rest := by
      simp [appendJournalEvent, hrot]
    refine ⟨?_, fun hge => absurd hge hrot, fun _ => heq⟩
    rw [heq]
    simpa using hlen

/-- Witness for actionJournal_rotation_invariant: three one-byte-per-event
files at capacity 3 with rotation size 2 and a full file 0. -/
theorem actionJournal_rotation_invariant_witness :
    1 ≤ (3 : ℕ) ∧ ([[1, 1], [2], [3]] : List (List ℕ)).length ≤ 3 ∧
    ((appendJournalEvent (fun _ => 1) ⟨2, 3⟩ [[1, 1], [2], [3]] 9).length ≤ 3 ∧
      ((2 : ℕ) ≤ journalFileSize (fun _ => 1) [1, 1] →
        appendJournalEvent (fun _ => 1) ⟨2, 3⟩ [[1, 1], [2], [3]] 9 =
          [9] :: ([[1, 1], [2], [3]] : List (List ℕ)).take (3 - 1) ∧
        (appendJournalEvent (fun _ => 1) ⟨2, 3⟩ [[1, 1], [2], [3]] 9).flatten =
          9 :: (([[1, 1], [2], [3]] : List (List ℕ)).take (3 - 1)).flatten) ∧
      (journalFileSize (fun _ => 1) [1, 1] < 2 →
        appendJournalEvent (fun _ => 1) ⟨2, 3⟩ [[1, 1], [2], [3]] 9 =
          ([1, 1] ++ [9]) :: [[2], [3]])) :=
  ⟨by decide, by decide,
    actionJournal_rotation_invariant ℕ (fun _ => 1) ⟨2, 3⟩ [1, 1] [[2], [3]] 9
      (by decide) (by decide)⟩

/-- Claim C7 (amended): for a nonempty point list, when the computed minScale
is not positive (padding exceeds the viewport in some dimension) the free
cameraForLatLngs logs an error-level diagnostic — not a warning-level one — and
returns the current zoom of the transform unchanged; when minScale is positive
the returned zoom is clamped to the minZoom..maxZoom range, and when minScale
keeps its INFINITY initial value the returned zoom is maxZoom (still inside the
range); no diagnostic is logged in the non-degenerate cases. -/
theorem cameraForLatLngs_degenerate_padding
    (proj : LatLng → ScreenCoordinate) (invProj : ScreenCoordinate → LatLng)
    (st : TransformState) (l2 : ℚ → ℚ) (padding : EdgeInsets) (p : LatLng) (ps : List LatLng)
    (hrange : st.minZoom ≤ st.maxZoom) :
    (∀ s, minScaleFor proj st.size padding p ps = some s → s ≤ 0 →
      (cameraForLatLngs proj invProj st l2 (p :: ps) padding).2 = some LogSeverity.Error ∧
      (cameraForLatLngs proj invProj st l2 (p :: ps) padding).1.zoom = some st.zoom) ∧
    (∀ s, minScaleFor proj st.size padding p ps = some s → 0 < s →
      (cameraForLatLngs proj invProj st l2 (p :: ps) padding).2 = none ∧
      ∃ z, (cameraForLatLngs proj invProj st l2 (p :: ps) padding).1.zoom = some z ∧
        st.minZoom ≤ z ∧ z ≤ st.maxZoom) ∧
    (minScaleFor proj st.size padding p ps = none →
      (cameraForLatLngs proj invProj st l2 (p :: ps) padding).2 = none ∧
      (cameraForLatLngs proj invProj st l2 (p :: ps) padding).1.zoom = some st.maxZoom) := by
  refine ⟨?_, ?_, ?_⟩
  · intro s hms hs
    constructor
    · simp [cameraForLatLngs, hms, not_lt.mpr hs]
    · simp [cameraForLatLngs, hms, not_lt.mpr hs]
  · intro s hms hs
    have hmem := clamp_mem (st.zoom + l2 s) _ _ hrange
    refine ⟨?_, clamp (st.zoom + l2 s) st.minZoom st.maxZoom, ?_, hmem.1, hmem.2⟩
    · simp [cameraForLatLngs, hms, hs]
    · simp [cameraForLatLngs, hms, hs]
  · intro hms
    constructor
    · simp [cameraForLatLngs, hms]
    · simp [cameraForLatLngs, hms, max_eq_right hrange]

/-- Counterexample to claim C7 as stated: at a concrete degenerate input
(padding of 1000 px on a 100 px viewport) the logged diagnostic is error-level,
not warning-level as the claim asserts. -/
theorem cameraForLatLngs_degenerate_logs_error_not_warning :
    (cameraForLatLngs projEx invProjEx exampleState l2Ex exampleCorners
        exampleDegeneratePadding).2 ≠ some LogSeverity.Warning ∧
    (cameraForLatLngs projEx invProjEx exampleState l2Ex exampleCorners
        exampleDegeneratePadding).2 = some LogSeverity.Error := by
  have hms : minScaleFor projEx exampleState.size exampleDegeneratePadding
      (⟨0, 0⟩ : LatLng) [(⟨10, 10⟩ : LatLng)] = some (-90) := by
    norm_num [minScaleFor, neX, neY, swX, swY, projEx, exampleState, exampleDegeneratePadding]
  have h2 : (cameraForLatLngs projEx invProjEx exampleState l2Ex exampleCorners
      exampleDegeneratePadding).2 = some LogSeverity.Error := by
    show (cameraForLatLngs projEx invProjEx exampleState l2Ex
      ((⟨0, 0⟩ : LatLng) :: [(⟨10, 10⟩ : LatLng)]) exampleDegeneratePadding).2 = _
    norm_num [cameraForLatLngs, hms]
  exact ⟨by rw [h2]; simp, h2⟩

/-- Witness for cameraForLatLngs_degenerate_padding at the concrete degenerate
input of the counterexample. -/
theorem cameraForLatLngs_degenerate_padding_witness :
    exampleState.minZoom ≤ exampleState.maxZoom ∧
    minScaleFor projEx exampleState.size exampleDegeneratePadding
      (⟨0, 0⟩ : LatLng) [(⟨10, 10⟩ : LatLng)] = some (-90) ∧ (-90 : ℚ) ≤ 0 ∧
    ((cameraForLatLngs projEx invProjEx exampleState l2Ex
        ((⟨0, 0⟩ : LatLng) :: [(⟨10, 10⟩ : LatLng)]) exampleDegeneratePadding).2 =
      some LogSeverity.Error ∧
    (cameraForLatLngs projEx invProjEx exampleState l2Ex
        ((⟨0, 0⟩ : LatLng) :: [(⟨10, 10⟩ : LatLng)]) exampleDegeneratePadding).1.zoom =
      some exampleState.zoom) := by
  have hms : minScaleFor projEx exampleState.size exampleDegeneratePadding
      (⟨0, 0⟩ : LatLng) [(⟨10, 10⟩ : LatLng)] = some (-90) := by
    norm_num [minScaleFor, neX, neY, swX, swY, projEx, exampleState, exampleDegeneratePadding]
  exact ⟨by decide, hms, by norm_num,
    (cameraForLatLngs_degenerate_padding projEx invProjEx exampleState l2Ex
        exampleDegeneratePadding ⟨0, 0⟩ [⟨10, 10⟩] (by decide)).1 (-90) hms (by norm_num)⟩

/-- The bounds block preserves the camera fields, the four range constraints
and the accumulated CameraOptions. -/
theorem stepBounds_fields (ob : Option LatLngBounds) (a : MapImpl × CameraOptions × Bool) :
    (setBoundsStepBounds ob a).1.transform.state.zoom = a.1.transform.state.zoom ∧
    (setBoundsStepBounds ob a).1.transform.state.pitch = a.1.transform.state.pitch ∧
    (setBoundsStepBounds ob a).1.transform.state.latitude = a.1.transform.state.latitude ∧
    (setBoundsStepBounds ob a).1.transform.state.longitude = a.1.transform.state.longitude ∧
    (setBoundsStepBounds ob a).1.transform.state.bearing = a.1.transform.state.bearing ∧
    (setBoundsStepBounds ob a).1.transform.state.minZoom = a.1.transform.state.minZoom ∧
    (setBoundsStepBounds ob a).1.transform.state.maxZoom = a.1.transform.state.maxZoom ∧
    (setBoundsStepBounds ob a).1.transform.state.minPitch = a.1.transform.state.minPitch ∧
    (setBoundsStepBounds ob a).1.transform.state.maxPitch = a.1.transform.state.maxPitch ∧
    (setBoundsStepBounds ob a).2.1 = a.2.1 := by
  rcases ob with _ | b <;> simp [setBoundsStepBounds, Transform.setLatLngBounds]

/-- The bounds block never resets the changeCamera flag. -/
theorem stepBounds_flag_mono (ob : Option LatLngBounds) (a : MapImpl × CameraOptions × Bool)
    (h : a.2.2 = true) : (setBoundsStepBounds ob a).2.2 = true := by
  rcases ob with _ | b <;> simp [setBoundsStepBounds, h]

/-- The minZoom block preserves the camera fields, the other three range
constraints and the accumulated camera pitch. -/
theorem stepMinZoom_state (oz : Option ℚ) (a : MapImpl × CameraOptions × Bool) :
    (setBoundsStepMinZoom oz a).1.transform.state.zoom = a.1.transform.state.zoom ∧
    (setBoundsStepMinZoom oz a).1.transform.state.pitch = a.1.transform.state.pitch ∧
    (setBoundsStepMinZoom oz a).1.transform.state.latitude = a.1.transform.state.latitude ∧
    (setBoundsStepMinZoom oz a).1.transform.state.longitude = a.1.transform.state.longitude ∧
    (setBoundsStepMinZoom oz a).1.transform.state.bearing = a.1.transform.state.bearing ∧
    (setBoundsStepMinZoom oz a).1.transform.state.maxZoom = a.1.transform.state.maxZoom ∧
    (setBoundsStepMinZoom oz a).1.transform.state.minPitch = a.1.transform.state.minPitch ∧
    (setBoundsStepMinZoom oz a).1.transform.state.maxPitch = a.1.transform.state.maxPitch ∧
    (setBoundsStepMinZoom oz a).2.1.pitch = a.2.1.pitch := by
  rcases oz with _ | mz
  · simp [setBoundsStepMinZoom]
  · simp only [setBoundsStepMinZoom]
    split_ifs <;> simp [Transform.setMinZoom, Transform.getZoom]

/-- The minZoom block stores the given constraint. -/
theorem stepMinZoom_minZoom (oz : Option ℚ) (a : MapImpl × CameraOptions × Bool) :
    (setBoundsStepMinZoom oz a).1.transform.state.minZoom =
      oz.getD a.1.transform.state.minZoom := by
  rcases oz with _ | mz
  · simp [setBoundsStepMinZoom]
  · simp only [setBoundsStepMinZoom]
    split_ifs <;> simp [Transform.setMinZoom]

/-- The minZoom block with a triggering current zoom. -/
theorem stepMinZoom_lt (mz : ℚ) (a : MapImpl × CameraOptions × Bool)
    (h : a.1.transform.state.zoom < mz) :
    setBoundsStepMinZoom (some mz) a =
      ({ a.1 with transform := a.1.transform.setMinZoom mz },
        { a.2.1 with zoom := some mz }, true) := by
  simp only [setBoundsStepMinZoom]
  split_ifs with hc
  · rfl
  · exact absurd h (by simpa [Transform.getZoom, Transform.setMinZoom] using hc)

/-- The minZoom block without a triggering current zoom changes neither the
accumulated camera nor the changeCamera flag. -/
theorem stepMinZoom_no_trigger (oz : Option ℚ) (a : MapImpl × CameraOptions × Bool)
    (h : ∀ mz, oz = some mz → ¬ a.1.transform.state.zoom < mz) :
    (setBoundsStepMinZoom oz a).2.1 = a.2.1 ∧ (setBoundsStepMinZoom oz a).2.2 = a.2.2 := by
  rcases oz with _ | mz
  · exact ⟨rfl, rfl⟩
  · simp only [setBoundsStepMinZoom]
    split_ifs with hc
    · exact absurd (by simpa [Transform.getZoom, Transform.setMinZoom] using hc) (h mz rfl)
    · exact ⟨rfl, rfl⟩

/-- The minZoom block never resets the changeCamera flag. -/
theorem stepMinZoom_flag_mono (oz : Option ℚ) (a : MapImpl × CameraOptions × Bool)
    (h : a.2.2 = true) : (setBoundsStepMinZoom oz a).2.2 = true := by
  rcases oz with _ | mz
  · exact h
  · simp only [setBoundsStepMinZoom]
    split_ifs <;> simp [h]

/-- The maxZoom block preserves the camera fields, the other three range
constraints and the accumulated camera pitch. -/
theorem stepMaxZoom_state (oz : Option ℚ) (a : MapImpl × CameraOptions × Bool) :
    (setBoundsStepMaxZoom oz a).1.transform.state.zoom = a.1.transform.state.zoom ∧
    (setBoundsStepMaxZoom oz a).1.transform.state.pitch = a.1.transform.state.pitch ∧
    (setBoundsStepMaxZoom oz a).1.transform.state.latitude = a.1.transform.state.latitude ∧
    (setBoundsStepMaxZoom oz a).1.transform.state.longitude = a.1.transform.state.longitude ∧
    (setBoundsStepMaxZoom oz a).1.transform.state.bearing = a.1.transform.state.bearing ∧
    (setBoundsStepMaxZoom oz a).1.transform.state.minZoom = a.1.transform.state.minZoom ∧
    (setBoundsStepMaxZoom oz a).1.transform.state.minPitch = a.1.transform.state.minPitch ∧
    (setBoundsStepMaxZoom oz a).1.transform.state.maxPitch = a.1.transform.state.maxPitch ∧
    (setBoundsStepMaxZoom oz a).2.1.pitch = a.2.1.pitch := by
  rcases oz with _ | mx
  · simp [setBoundsStepMaxZoom]
  · simp only [setBoundsStepMaxZoom]
    split_ifs <;> simp [Transform.setMaxZoom, Transform.getZoom]

/-- The maxZoom block stores the given constraint. -/
theorem stepMaxZoom_maxZoom (oz : Option ℚ) (a : MapImpl × CameraOptions × Bool) :
    (setBoundsStepMaxZoom oz a).1.transform.state.maxZoom =
      oz.getD a.1.transform.state.maxZoom := by
  rcases oz with _ | mx
  · simp [setBoundsStepMaxZoom]
  · simp only [setBoundsStepMaxZoom]
    split_ifs <;> simp [Transform.setMaxZoom]

/-- The maxZoom block with a triggering current zoom. -/
theorem stepMaxZoom_gt (mx : ℚ) (a : MapImpl × CameraOptions × Bool)
    (h : mx < a.1.transform.state.zoom) :
    setBoundsStepMaxZoom (some mx) a =
      ({ a.1 with transform := a.1.transform.setMaxZoom mx },
        { a.2.1 with zoom := some mx }, true) := by
  simp only [setBoundsStepMaxZoom]
  split_ifs with hc
  · rfl
  · exact absurd h (by simpa [Transform.getZoom, Transform.setMaxZoom] using hc)

/-- The maxZoom block without a triggering current zoom changes neither the
accumulated camera nor the changeCamera flag. -/
theorem stepMaxZoom_no_trigger (oz : Option ℚ) (a : MapImpl × CameraOptions × Bool)
    (h : ∀ mx, oz = some mx → ¬ mx < a.1.transform.state.zoom) :
    (setBoundsStepMaxZoom oz a).2.1 = a.2.1 ∧ (setBoundsStepMaxZoom oz a).2.2 = a.2.2 := by
  rcases oz with _ | mx
  · exact ⟨rfl, rfl⟩
  · simp only [setBoundsStepMaxZoom]
    split_ifs with hc
    · exact absurd (by simpa [Transform.getZoom, Transform.setMaxZoom] using hc) (h mx rfl)
    · exact ⟨rfl, rfl⟩

/-- The maxZoom block never resets the changeCamera flag. -/
theorem stepMaxZoom_flag_mono (oz : Option ℚ) (a : MapImpl × CameraOptions × Bool)
    (h : a.2.2 = true) : (setBoundsStepMaxZoom oz a).2.2 = true := by
  rcases oz with _ | mx
  · exact h
  · simp only [setBoundsStepMaxZoom]
    split_ifs <;> simp [h]

/-- The maxPitch block preserves the camera fields, the other three range
constraints and the accumulated camera zoom. -/
theorem stepMaxPitch_state (op : Option ℚ) (a : MapImpl × CameraOptions × Bool) :
    (setBoundsStepMaxPitch op a).1.transform.state.zoom = a.1.transform.state.zoom ∧
    (setBoundsStepMaxPitch op a).1.transform.state.pitch = a.1.transform.state.pitch ∧
    (setBoundsStepMaxPitch op a).1.transform.state.latitude = a.1.transform.state.latitude ∧
    (setBoundsStepMaxPitch op a).1.transform.state.longitude = a.1.transform.state.longitude ∧
    (setBoundsStepMaxPitch op a).1.transform.state.bearing = a.1.transform.state.bearing ∧
    (setBoundsStepMaxPitch op a).1.transform.state.minZoom = a.1.transform.state.minZoom ∧
    (setBoundsStepMaxPitch op a).1.transform.state.maxZoom = a.1.transform.state.maxZoom ∧
    (setBoundsStepMaxPitch op a).1.transform.state.minPitch = a.1.transform.state.minPitch ∧
    (setBoundsStepMaxPitch op a).2.1.zoom = a.2.1.zoom := by
  rcases op with _ | mp
  · simp [setBoundsStepMaxPitch]
  · simp only [setBoundsStepMaxPitch]
    split_ifs <;> simp [Transform.setMaxPitch, Transform.getPitch, Transform.getState]

/-- The maxPitch block stores the given constraint. -/
theorem stepMaxPitch_maxPitch (op : Option ℚ) (a : MapImpl × CameraOptions × Bool) :
    (setBoundsStepMaxPitch op a).1.transform.state.maxPitch =
      op.getD a.1.transform.state.maxPitch := by
  rcases op with _ | mp
  · simp [setBoundsStepMaxPitch]
  · simp only [setBoundsStepMaxPitch]
    split_ifs <;> simp [Transform.setMaxPitch]

/-- The maxPitch block with a triggering current pitch. -/
theorem stepMaxPitch_gt (mp : ℚ) (a : MapImpl × CameraOptions × Bool)
    (h : mp < a.1.transform.state.pitch) :
    setBoundsStepMaxPitch (some mp) a =
      ({ a.1 with transform := a.1.transform.setMaxPitch mp },
        { a.2.1 with pitch := some mp }, true) := by
  simp only [setBoundsStepMaxPitch]
  split_ifs with hc
  · rfl
  · exact absurd h
      (by simpa [Transform.getPitch, Transform.getState, Transform.setMaxPitch] using hc)

/-- The maxPitch block without a triggering current pitch changes neither the
accumulated camera nor the changeCamera flag. -/
theorem stepMaxPitch_no_trigger (op : Option ℚ) (a : MapImpl × CameraOptions × Bool)
    (h : ∀ mp, op = some mp → ¬ mp < a.1.transform.state.pitch) :
    (setBoundsStepMaxPitch op a).2.1 = a.2.1 ∧ (setBoundsStepMaxPitch op a).2.2 = a.2.2 := by
  rcases op with _ | mp
  · exact ⟨rfl, rfl⟩
  · simp only [setBoundsStepMaxPitch]
    split_ifs with hc
    · exact absurd
        (by simpa [Transform.getPitch, Transform.getState, Transform.setMaxPitch] using hc)
        (h mp rfl)
    · exact ⟨rfl, rfl⟩

/-- The maxPitch block never resets the changeCamera flag. -/
theorem stepMaxPitch_flag_mono (op : Option ℚ) (a : MapImpl × CameraOptions × Bool)
    (h : a.2.2 = true) : (setBoundsStepMaxPitch op a).2.2 = true := by
  rcases op with _ | mp
  · exact h
  · simp only [setBoundsStepMaxPitch]
    split_ifs <;> simp [h]

/-- The minPitch block preserves the camera fields, the other three range
constraints and the accumulated camera zoom. -/
theorem stepMinPitch_state (op : Option ℚ) (a : MapImpl × CameraOptions × Bool) :
    (setBoundsStepMinPitch op a).1.transform.state.zoom = a.1.transform.state.zoom ∧
    (setBoundsStepMinPitch op a).1.transform.state.pitch = a.1.transform.state.pitch ∧
    (setBoundsStepMinPitch op a).1.transform.state.latitude = a.1.transform.state.latitude ∧
    (setBoundsStepMinPitch op a).1.transform.state.longitude = a.1.transform.state.longitude ∧
    (setBoundsStepMinPitch op a).1.transform.state.bearing = a.1.transform.state.bearing ∧
    (setBoundsStepMinPitch op a).1.transform.state.minZoom = a.1.transform.state.minZoom ∧
    (setBoundsStepMinPitch op a).1.transform.state.maxZoom = a.1.transform.state.maxZoom ∧
    (setBoundsStepMinPitch op a).1.transform.state.maxPitch = a.1.transform.state.maxPitch ∧
    (setBoundsStepMinPitch op a).2.1.zoom = a.2.1.zoom := by
  rcases op with _ | mp
  · simp [setBoundsStepMinPitch]
  · simp only [setBoundsStepMinPitch]
    split_ifs <;> simp [Transform.setMinPitch, Transform.getPitch, Transform.getState]

/-- The minPitch block stores the given constraint. -/
theorem stepMinPitch_minPitch (op : Option ℚ) (a : MapImpl × CameraOptions × Bool) :
    (setBoundsStepMinPitch op a).1.transform.state.minPitch =
      op.getD a.1.transform.state.minPitch := by
  rcases op with _ | mp
  · simp [setBoundsStepMinPitch]
  · simp only [setBoundsStepMinPitch]
    split_ifs <;> simp [Transform.setMinPitch]

/-- The minPitch block with a triggering current pitch. -/
theorem stepMinPitch_lt (mp : ℚ) (a : MapImpl × CameraOptions × Bool)
    (h : a.1.transform.state.pitch < mp) :
    setBoundsStepMinPitch (some mp) a =
      ({ a.1 with transform := a.1.transform.setMinPitch mp },
        { a.2.1 with pitch := some mp }, true) := by
  simp only [setBoundsStepMinPitch]
  split_ifs with hc
  · rfl
  · exact absurd h
      (by simpa [Transform.getPitch, Transform.getState, Transform.setMinPitch] using hc)

/-- The minPitch block without a triggering current pitch changes neither the
accumulated camera nor the changeCamera flag. -/
theorem stepMinPitch_no_trigger (op : Option ℚ) (a : MapImpl × CameraOptions × Bool)
    (h : ∀ mp, op = some mp → ¬ a.1.transform.state.pitch < mp) :
    (setBoundsStepMinPitch op a).2.1 = a.2.1 ∧ (setBoundsStepMinPitch op a).2.2 = a.2.2 := by
  rcases op with _ | mp
  · exact ⟨rfl, rfl⟩
  · simp only [setBoundsStepMinPitch]
    split_ifs with hc
    · exact absurd
        (by simpa [Transform.getPitch, Transform.getState, Transform.setMinPitch] using hc)
        (h mp rfl)
    · exact ⟨rfl, rfl⟩

/-- The minPitch block never resets the changeCamera flag. -/
theorem stepMinPitch_flag_mono (op : Option ℚ) (a : MapImpl × CameraOptions × Bool)
    (h : a.2.2 = true) : (setBoundsStepMinPitch op a).2.2 = true := by
  rcases op with _ | mp
  · exact h
  · simp only [setBoundsStepMinPitch]
    split_ifs <;> simp [h]

/-- Claim C6: Map::setBounds applies the constraints present in the options and
re-clamps the current camera through a re-jump: a current zoom below a given
minZoom becomes minZoom, a current zoom above a given maxZoom becomes maxZoom,
and symmetrically for minPitch/maxPitch; when no bounds are given and no
current value falls outside the new ranges the camera is unchanged.  The range
hypotheses state that the effective zoom and pitch ranges after the update are
nonempty. -/
theorem setBounds_reclamps_camera (m : MapImpl) (o : BoundOptions)
    (hz : o.minZoom.getD m.transform.state.minZoom ≤ o.maxZoom.getD m.transform.state.maxZoom)
    (hp : o.minPitch.getD m.transform.state.minPitch ≤
      o.maxPitch.getD m.transform.state.maxPitch) :
    (∀ mz, o.minZoom = some mz → m.transform.state.zoom < mz →
      (Map.setBounds m o).transform.state.zoom = mz) ∧
    (∀ mx, o.maxZoom = some mx → mx < m.transform.state.zoom →
      (Map.setBounds m o).transform.state.zoom = mx) ∧
    (∀ mp, o.minPitch = some mp → m.transform.state.pitch < mp →
      (Map.setBounds m o).transform.state.pitch = mp) ∧
    (∀ mp, o.maxPitch = some mp → mp < m.transform.state.pitch →
      (Map.setBounds m o).transform.state.pitch = mp) ∧
    (o.bounds = none →
      (∀ mz, o.minZoom = some mz → mz ≤ m.transform.state.zoom) →
      (∀ mx, o.maxZoom = some mx → m.transform.state.zoom ≤ mx) →
      (∀ mp, o.maxPitch = some mp → m.transform.state.pitch ≤ mp) →
      (∀ mp, o.minPitch = some mp → mp ≤ m.transform.state.pitch) →
      (Map.setBounds m o).transform.state.zoom = m.transform.state.zoom ∧
      (Map.setBounds m o).transform.state.pitch = m.transform.state.pitch ∧
      (Map.setBounds m o).transform.state.latitude = m.transform.state.latitude ∧
      (Map.setBounds m o).transform.state.longitude = m.transform.state.longitude ∧
      (Map.setBounds m o).transform.state.bearing = m.transform.state.bearing) := by
  refine ⟨?_, ?_, ?_, ?_, ?_⟩
  · -- a present minZoom above the current zoom: the re-jump lands on minZoom
    intro mz hmz hlt
    have hnomx : ∀ mx, o.maxZoom = some mx → ¬ mx < m.transform.state.zoom := by
      intro mx hmx
      rw [hmz, hmx] at hz
      simp only [Option.getD_some] at hz
      exact not_lt.mpr (le_of_lt (lt_of_lt_of_le hlt hz))
    simp only [Map.setBounds, hmz]
    have h1 := stepBounds_fields o.bounds (m, ({} : CameraOptions), false)
    set A1 := setBoundsStepBounds o.bounds (m, ({} : CameraOptions), false) with hA1
    rw [stepMinZoom_lt mz A1 (by rw [h1.1]; exact hlt)]
    set A2 := ({ A1.1 with transform := A1.1.transform.setMinZoom mz },
      { A1.2.1 with zoom := some mz }, true) with hA2
    have hA2zoom : A2.1.transform.state.zoom = m.transform.state.zoom := by
      rw [hA2]
      simpa [Transform.setMinZoom] using h1.1
    have hA2min : A2.1.transform.state.minZoom = mz := by
      simp [hA2, Transform.setMinZoom]
    have hA2cam : A2.2.1.zoom = some mz := by simp [hA2]
    have hA2flag : A2.2.2 = true := by simp [hA2]
    have h3 := stepMaxZoom_state o.maxZoom A2
    have h3nt := stepMaxZoom_no_trigger o.maxZoom A2 (by
      intro mx hmx
      rw [hA2zoom]
      exact hnomx mx hmx)
    set A3 := setBoundsStepMaxZoom o.maxZoom A2 with hA3
    have hA3min : A3.1.transform.state.minZoom = mz := h3.2.2.2.2.2.1.trans hA2min
    have hA3cam : A3.2.1.zoom = some mz := by rw [h3nt.1, hA2cam]
    have hA3flag : A3.2.2 = true := h3nt.2.trans hA2flag
    have h4 := stepMaxPitch_state o.maxPitch A3
    have h4flag := stepMaxPitch_flag_mono o.maxPitch A3 hA3flag
    set A4 := setBoundsStepMaxPitch o.maxPitch A3 with hA4
    have hA4min : A4.1.transform.state.minZoom = mz := h4.2.2.2.2.2.1.trans hA3min
    have hA4cam : A4.2.1.zoom = some mz := h4.2.2.2.2.2.2.2.2.trans hA3cam
    have h5 := stepMinPitch_state o.minPitch A4
    have h5flag := stepMinPitch_flag_mono o.minPitch A4 h4flag
    set A5 := setBoundsStepMinPitch o.minPitch A4 with hA5
    have hA5min : A5.1.transform.state.minZoom = mz := h5.2.2.2.2.2.1.trans hA4min
    have hA5cam : A5.2.1.zoom = some mz := h5.2.2.2.2.2.2.2.2.trans hA4cam
    rw [if_pos h5flag]
    simp only [Map.jumpTo, MapImpl.jumpTo, Transform.jumpTo, TransformState.resolveTarget]
    rw [hA5cam, hA5min]
    simp only [Option.getD_some]
    exact clamp_at_lo mz _
  · -- a present maxZoom below the current zoom: the re-jump lands on maxZoom
    intro mx hmx hlt
    rw [hmx] at hz
    simp only [Option.getD_some] at hz
    simp only [Map.setBounds, hmx]
    have h1 := stepBounds_fields o.bounds (m, ({} : CameraOptions), false)
    set A1 := setBoundsStepBounds o.bounds (m, ({} : CameraOptions), false) with hA1
    have h2 := stepMinZoom_state o.minZoom A1
    have h2min := stepMinZoom_minZoom o.minZoom A1
    set A2 := setBoundsStepMinZoom o.minZoom A1 with hA2
    have hA2zoom : A2.1.transform.state.zoom = m.transform.state.zoom := h2.1.trans h1.1
    have hA2min : A2.1.transform.state.minZoom =
        o.minZoom.getD m.transform.state.minZoom := by
      rw [h2min, h1.2.2.2.2.2.1]
    rw [stepMaxZoom_gt mx A2 (by rw [hA2zoom]; exact hlt)]
    set A3 := ({ A2.1 with transform := A2.1.transform.setMaxZoom mx },
      { A2.2.1 with zoom := some mx }, true) with hA3
    have hA3min : A3.1.transform.state.minZoom =
        o.minZoom.getD m.transform.state.minZoom := by
      rw [hA3]
      simpa [Transform.setMaxZoom] using hA2min
    have hA3max : A3.1.transform.state.maxZoom = mx := by
      simp [hA3, Transform.setMaxZoom]
    have hA3cam : A3.2.1.zoom = some mx := by simp [hA3]
    have hA3flag : A3.2.2 = true := by simp [hA3]
    have h4 := stepMaxPitch_state o.maxPitch A3
    have h4flag := stepMaxPitch_flag_mono o.maxPitch A3 hA3flag
    set A4 := setBoundsStepMaxPitch o.maxPitch A3 with hA4
    have hA4min : A4.1.transform.state.minZoom =
        o.minZoom.getD m.transform.state.minZoom := h4.2.2.2.2.2.1.trans hA3min
    have hA4max : A4.1.transform.state.maxZoom = mx := h4.2.2.2.2.2.2.1.trans hA3max
    have hA4cam : A4.2.1.zoom = some mx := h4.2.2.2.2.2.2.2.2.trans hA3cam
    have h5 := stepMinPitch_state o.minPitch A4
    have h5flag := stepMinPitch_flag_mono o.minPitch A4 h4flag
    set A5 := setBoundsStepMinPitch o.minPitch A4 with hA5
    have hA5min : A5.1.transform.state.minZoom =
        o.minZoom.getD m.transform.state.minZoom := h5.2.2.2.2.2.1.trans hA4min
    have hA5max : A5.1.transform.state.maxZoom = mx := h5.2.2.2.2.2.2.1.trans hA4max
    have hA5cam : A5.2.1.zoom = some mx := h5.2.2.2.2.2.2.2.2.trans hA4cam
    rw [if_pos h5flag]
    simp only [Map.jumpTo, MapImpl.jumpTo, Transform.jumpTo, TransformState.resolveTarget]
    rw [hA5cam, hA5min, hA5max]
    simp only [Option.getD_some]
    exact clamp_at_hi mx _ hz
  · -- a present minPitch above the current pitch: the re-jump lands on minPitch
    intro mp hmp hlt
    simp only [Map.setBounds, hmp]
    have h1 := stepBounds_fields o.bounds (m, ({} : CameraOptions), false)
    set A1 := setBoundsStepBounds o.bounds (m, ({} : CameraOptions), false) with hA1
    have h2 := stepMinZoom_state o.minZoom A1
    set A2 := setBoundsStepMinZoom o.minZoom A1 with hA2
    have h3 := stepMaxZoom_state o.maxZoom A2
    set A3 := setBoundsStepMaxZoom o.maxZoom A2 with hA3
    have hA3pitch : A3.1.transform.state.pitch = m.transform.state.pitch := by
      rw [h3.2.1, h2.2.1, h1.2.1]
    have h4 := stepMaxPitch_state o.maxPitch A3
    set A4 := setBoundsStepMaxPitch o.maxPitch A3 with hA4
    have hA4pitch : A4.1.transform.state.pitch = m.transform.state.pitch :=
      h4.2.1.trans hA3pitch
    rw [stepMinPitch_lt mp A4 (by rw [hA4pitch]; exact hlt)]
    set A5 := ({ A4.1 with transform := A4.1.transform.setMinPitch mp },
      { A4.2.1 with pitch := some mp }, true) with hA5
    have hA5minp : A5.1.transform.state.minPitch = mp := by
      simp [hA5, Transform.setMinPitch]
    have hA5cam : A5.2.1.pitch = some mp := by simp [hA5]
    have hA5flag : A5.2.2 = true := by simp [hA5]
    rw [if_pos hA5flag]
    simp only [Map.jumpTo, MapImpl.jumpTo, Transform.jumpTo, TransformState.resolveTarget,
      Transform.setMinPitch, Option.getD_some]
    exact clamp_at_lo mp _
  · -- a present maxPitch below the current pitch: the re-jump lands on maxPitch
    intro mp hmp hlt
    rw [hmp] at hp
    simp only [Option.getD_some] at hp
    have hnomnp : ∀ mnp, o.minPitch = some mnp → ¬ m.transform.state.pitch < mnp := by
      intro mnp hmnp
      rw [hmnp] at hp
      simp only [Option.getD_some] at hp
      exact not_lt.mpr (le_of_lt (lt_of_le_of_lt hp hlt))
    simp only [Map.setBounds, hmp]
    have h1 := stepBounds_fields o.bounds (m, ({} : CameraOptions), false)
    set A1 := setBoundsStepBounds o.bounds (m, ({} : CameraOptions), false) with hA1
    have h2 := stepMinZoom_state o.minZoom A1
    set A2 := setBoundsStepMinZoom o.minZoom A1 with hA2
    have h3 := stepMaxZoom_state o.maxZoom A2
    set A3 := setBoundsStepMaxZoom o.maxZoom A2 with hA3
    have hA3pitch : A3.1.transform.state.pitch = m.transform.state.pitch := by
      rw [h3.2.1, h2.2.1, h1.2.1]
    have hA3minp : A3.1.transform.state.minPitch = m.transform.state.minPitch := by
      rw [h3.2.2.2.2.2.2.1, h2.2.2.2.2.2.2.1, h1.2.2.2.2.2.2.2.1]
    rw [stepMaxPitch_gt mp A3 (by rw [hA3pitch]; exact hlt)]
    set A4 := ({ A3.1 with transform := A3.1.transform.setMaxPitch mp },
      { A3.2.1 with pitch := some mp }, true) with hA4
    have hA4pitch : A4.1.transform.state.pitch = m.transform.state.pitch := by
      rw [hA4]
      simpa [Transform.setMaxPitch] using hA3pitch
    have hA4minp : A4.1.transform.state.minPitch = m.transform.state.minPitch := by
      rw [hA4]
      simpa [Transform.setMaxPitch] using hA3minp
    have hA4maxp : A4.1.transform.state.maxPitch = mp := by
      simp [hA4, Transform.setMaxPitch]
    have hA4cam : A4.2.1.pitch = some mp := by simp [hA4]
    have hA4flag : A4.2.2 = true := by simp [hA4]
    have h5 := stepMinPitch_state o.minPitch A4
    have h5minp := stepMinPitch_minPitch o.minPitch A4
    have h5nt := stepMinPitch_no_trigger o.minPitch A4 (by
      intro mnp hmnp
      rw [hA4pitch]
      exact hnomnp mnp hmnp)
    set A5 := setBoundsStepMinPitch o.minPitch A4 with hA5
    have hA5maxp : A5.1.transform.state.maxPitch = mp := h5.2.2.2.2.2.2.2.1.trans hA4maxp
    have hA5minp : A5.1.transform.state.minPitch ≤ mp := by
      rw [h5minp, hA4minp]
      exact hp
    have hA5cam : A5.2.1.pitch = some mp := by rw [h5nt.1, hA4cam]
    have hA5flag : A5.2.2 = true := h5nt.2.trans hA4flag
    rw [if_pos hA5flag]
    simp only [Map.jumpTo, MapImpl.jumpTo, Transform.jumpTo, TransformState.resolveTarget]
    rw [hA5cam, hA5maxp]
    simp only [Option.getD_some]
    exact clamp_at_hi mp _ hA5minp
  · -- nothing out of range and no bounds: the camera is untouched
    intro hob h1z h2z h3p h4p
    simp only [Map.setBounds, hob]
    have h1 := stepBounds_fields none (m, ({} : CameraOptions), false)
    set A1 := setBoundsStepBounds none (m, ({} : CameraOptions), false) with hA1
    have hA1eq : A1 = (m, ({} : CameraOptions), false) := by rw [hA1]; rfl
    have h2 := stepMinZoom_state o.minZoom A1
    have h2nt := stepMinZoom_no_trigger o.minZoom A1 (by
      intro mz hmz
      rw [h1.1]
      exact not_lt.mpr (h1z mz hmz))
    set A2 := setBoundsStepMinZoom o.minZoom A1 with hA2
    have hA2zoom : A2.1.transform.state.zoom = m.transform.state.zoom := h2.1.trans h1.1
    have hA2pitch : A2.1.transform.state.pitch = m.transform.state.pitch :=
      h2.2.1.trans h1.2.1
    have hA2flag : A2.2.2 = false := by
      rw [h2nt.2, hA1eq]
    have h3 := stepMaxZoom_state o.maxZoom A2
    have h3nt := stepMaxZoom_no_trigger o.maxZoom A2 (by
      intro mx hmx
      rw [hA2zoom]
      exact not_lt.mpr (h2z mx hmx))
    set A3 := setBoundsStepMaxZoom o.maxZoom A2 with hA3
    have hA3zoom : A3.1.transform.state.zoom = m.transform.state.zoom := h3.1.trans hA2zoom
    have hA3pitch : A3.1.transform.state.pitch = m.transform.state.pitch :=
      h3.2.1.trans hA2pitch
    have hA3flag : A3.2.2 = false := h3nt.2.trans hA2flag
    have h4 := stepMaxPitch_state o.maxPitch A3
    have h4nt := stepMaxPitch_no_trigger o.maxPitch A3 (by
      intro mp hmp
      rw [hA3pitch]
      exact not_lt.mpr (h3p mp hmp))
    set A4 := setBoundsStepMaxPitch o.maxPitch A3 with hA4
    have hA4zoom : A4.1.transform.state.zoom = m.transform.state.zoom := h4.1.trans hA3zoom
    have hA4pitch : A4.1.transform.state.pitch = m.transform.state.pitch :=
      h4.2.1.trans hA3pitch
    have hA4flag : A4.2.2 = false := h4nt.2.trans hA3flag
    have h5 := stepMinPitch_state o.minPitch A4
    have h5nt := stepMinPitch_no_trigger o.minPitch A4 (by
      intro mp hmp
      rw [hA4pitch]
      exact not_lt.mpr (h4p mp hmp))
    set A5 := setBoundsStepMinPitch o.minPitch A4 with hA5
    have hA5flag : A5.2.2 = false := h5nt.2.trans hA4flag
    rw [if_neg (by rw [hA5flag]; exact Bool.false_ne_true)]
    refine ⟨?_, ?_, ?_, ?_, ?_⟩
    · rw [h5.1, hA4zoom]
    · rw [h5.2.1, hA4pitch]
    · rw [h5.2.2.1, h4.2.2.1, h3.2.2.1, h2.2.2.1, h1.2.2.1]
    · rw [h5.2.2.2.1, h4.2.2.2.1, h3.2.2.2.1, h2.2.2.2.1, h1.2.2.2.1]
    · rw [h5.2.2.2.2.1, h4.2.2.2.2.1, h3.2.2.2.2.1, h2.2.2.2.2.1, h1.2.2.2.2.1]
/-- Witness for setBounds_reclamps_camera: raising minZoom to 6 above the
current zoom 4 re-jumps the camera to zoom 6. -/
theorem setBounds_reclamps_camera_witness :
    ({ minZoom := some 6 } : BoundOptions).minZoom.getD exampleImpl.transform.state.minZoom ≤
      ({ minZoom := some 6 } : BoundOptions).maxZoom.getD exampleImpl.transform.state.maxZoom ∧
    ({ minZoom := some 6 } : BoundOptions).minPitch.getD exampleImpl.transform.state.minPitch ≤
      ({ minZoom := some 6 } : BoundOptions).maxPitch.getD exampleImpl.transform.state.maxPitch ∧
    exampleImpl.transform.state.zoom < 6 ∧
    (Map.setBounds exampleImpl { minZoom := some 6 }).transform.state.zoom = 6 :=
  ⟨by decide, by decide, by decide,
    (setBounds_reclamps_camera exampleImpl { minZoom := some 6 } (by decide) (by decide)).1
      6 rfl (by decide)⟩

end mbgl
